import Mathlib

/-!
Verification development for the tee-ware TSS codec framework and TPM client.
The definitions below are a shallow embedding of the Rust sources:
bytes are `Nat` values (valid when < 256), byte buffers are `List Nat`,
machine integers are `Nat` with explicit `% 2 ^ w` where wrapping matters,
fallible operations return `Except`, and a Rust `panic!` is modelled as an
explicit `panic` outcome distinct from a recoverable `TssError`.
-/

namespace Tss

/-! Errors, from crates/tss-serde/src/lib.rs (`TssError`). -/

inductive TssError where
  | insufficientData
  | invalidFormat
  | custom (msg : String)
deriving DecidableEq, Repr

/-! Byte cursor, from crates/tss-serde/src/lib.rs (`TssReader`). -/

structure TssReader where
  data : List Nat
  position : Nat
deriving DecidableEq, Repr

def TssReader.new (data : List Nat) : TssReader := ⟨data, 0⟩

def TssReader.remaining (r : TssReader) : Nat := r.data.length - r.position

def TssReader.hasRemaining (r : TssReader) (count : Nat) : Bool :=
  decide (count ≤ r.remaining)

def TssReader.read_u8 (r : TssReader) : Except TssError (Nat × TssReader) :=
  if r.hasRemaining 1 then
    .ok (r.data.getD r.position 0, ⟨r.data, r.position + 1⟩)
  else
    .error .insufficientData

def TssReader.read_bytes (r : TssReader) (count : Nat) :
    Except TssError (List Nat × TssReader) :=
  if r.hasRemaining count then
    .ok ((r.data.drop r.position).take count, ⟨r.data, r.position + count⟩)
  else
    .error .insufficientData

/-- Rust `read_array::<N>` returns the same bytes as `read_bytes(N)`; the
fixed-size array is modelled as a list of length `n`. -/
def TssReader.read_array (r : TssReader) (n : Nat) :
    Except TssError (List Nat × TssReader) :=
  r.read_bytes n

def TssReader.skip (r : TssReader) (count : Nat) : Except TssError TssReader :=
  if r.hasRemaining count then
    .ok ⟨r.data, r.position + count⟩
  else
    .error .insufficientData

def TssReader.peek_remaining (r : TssReader) : List Nat :=
  r.data.drop r.position

/-! Big-endian integer bytes, as produced by Rust `to_be_bytes`. -/

def beBytes : Nat → Nat → List Nat
  | 0, _ => []
  | w + 1, v => v / 2 ^ (8 * w) % 256 :: beBytes w v

def fromBeBytes (bs : List Nat) : Nat :=
  bs.foldl (fun acc b => acc * 256 + b) 0

/-! Primitive codecs, from crates/tss-serde/src/lib.rs. -/

def u8_to_tss_bytes (v : Nat) : List Nat := [v]

def u16_to_tss_bytes (v : Nat) : List Nat := beBytes 2 v

def u32_to_tss_bytes (v : Nat) : List Nat := beBytes 4 v

def u64_to_tss_bytes (v : Nat) : List Nat := beBytes 8 v

def u8_from_tss_reader (r : TssReader) : Except TssError (Nat × TssReader) :=
  r.read_u8

def u16_from_tss_reader (r : TssReader) : Except TssError (Nat × TssReader) :=
  match r.read_array 2 with
  | .error e => .error e
  | .ok (bs, r') => .ok (fromBeBytes bs, r')

def u32_from_tss_reader (r : TssReader) : Except TssError (Nat × TssReader) :=
  match r.read_array 4 with
  | .error e => .error e
  | .ok (bs, r') => .ok (fromBeBytes bs, r')

def u64_from_tss_reader (r : TssReader) : Except TssError (Nat × TssReader) :=
  match r.read_array 8 with
  | .error e => .error e
  | .ok (bs, r') => .ok (fromBeBytes bs, r')

def bool_from_tss_reader (r : TssReader) : Except TssError (Bool × TssReader) :=
  match r.read_array 1 with
  | .error e => .error e
  | .ok (bs, r') =>
    match bs.headD 0 with
    | 0 => .ok (false, r')
    | 1 => .ok (true, r')
    | _ => .error .invalidFormat

def array_from_tss_reader (n : Nat) (r : TssReader) :
    Except TssError (List Nat × TssReader) :=
  r.read_array n

/-- Element loop of the `Vec<T>` decoder: decode `n` elements in order. -/
def decodeElems {α : Type} (dec : TssReader → Except TssError (α × TssReader)) :
    Nat → TssReader → Except TssError (List α × TssReader)
  | 0, r => .ok ([], r)
  | n + 1, r =>
    match dec r with
    | .error e => .error e
    | .ok (a, r') =>
      match decodeElems dec n r' with
      | .error e => .error e
      | .ok (as, r'') => .ok (a :: as, r'')

/-- The `impl TssDeserialize for Vec<T>`: read a u32 count, then that many
elements. -/
def vec_from_tss_reader {α : Type}
    (dec : TssReader → Except TssError (α × TssReader)) (r : TssReader) :
    Except TssError (List α × TssReader) :=
  match u32_from_tss_reader r with
  | .error e => .error e
  | .ok (len, r') => decodeElems dec len r'

/-- The default `from_tss_bytes`: run a decoder on a fresh reader and drop the
final cursor. -/
def fromTssBytes {α : Type}
    (dec : TssReader → Except TssError (α × TssReader)) (bytes : List Nat) :
    Except TssError α :=
  match dec (TssReader.new bytes) with
  | .error e => .error e
  | .ok (a, _) => .ok a

/-! Command and response types, from crates/tss-client/src/primitives.rs.
Serialization of the derived structs follows the derive macro in
crates/tss-serde-derive/src/lib.rs: each field in declared order, integers
as big-endian bytes. -/

def commands.STARTUP : Nat := 0x00000144
def commands.GET_CAPABILITY : Nat := 0x0000017A
def commands.READ_PCR : Nat := 0x0000017E

def capabilities.TPM_PROPERTIES : Nat := 0x00000006
def capabilities.HANDLES_TRANSIENT : Nat := 0x00000001

def properties.FAMILY_INDICATOR : Nat := 0x00000100

def tags.NO_SESSIONS : Nat := 0x8001

structure StartupCommand where
  startup_type : Nat
deriving DecidableEq, Repr

def StartupCommand.to_tss_bytes (c : StartupCommand) : List Nat :=
  u16_to_tss_bytes c.startup_type

structure CommandHeader where
  tag : Nat
  length : Nat
  command_code : Nat
deriving DecidableEq, Repr

def CommandHeader.to_tss_bytes (h : CommandHeader) : List Nat :=
  u16_to_tss_bytes h.tag ++ u32_to_tss_bytes h.length ++
    u32_to_tss_bytes h.command_code

structure GetCapabilityCommand where
  capability : Nat
  property : Nat
  property_count : Nat
deriving DecidableEq, Repr

def GetCapabilityCommand.to_tss_bytes (c : GetCapabilityCommand) : List Nat :=
  u32_to_tss_bytes c.capability ++ u32_to_tss_bytes c.property ++
    u32_to_tss_bytes c.property_count

structure ResponseHeader where
  tag : Nat
  size : Nat
  response_code : Nat
deriving DecidableEq, Repr

def ResponseHeader.from_tss_reader (r : TssReader) :
    Except TssError (ResponseHeader × TssReader) :=
  match u16_from_tss_reader r with
  | .error e => .error e
  | .ok (tag, r1) =>
    match u32_from_tss_reader r1 with
    | .error e => .error e
    | .ok (size, r2) =>
      match u32_from_tss_reader r2 with
      | .error e => .error e
      | .ok (rc, r3) => .ok (⟨tag, size, rc⟩, r3)

structure RawResponse where
  bytes : List Nat
deriving DecidableEq, Repr

def RawResponse.from_tss_reader (r : TssReader) :
    Except TssError (RawResponse × TssReader) :=
  match vec_from_tss_reader u8_from_tss_reader r with
  | .error e => .error e
  | .ok (bs, r') => .ok (⟨bs⟩, r')

def RawResponse.from_tss_bytes (bytes : List Nat) : Except TssError RawResponse :=
  fromTssBytes RawResponse.from_tss_reader bytes

structure Empty where
deriving DecidableEq, Repr

def Empty.from_tss_reader (r : TssReader) :
    Except TssError (Empty × TssReader) :=
  if r.remaining ≠ 0 then .error .invalidFormat else .ok (⟨⟩, r)

def Empty.from_tss_bytes (bytes : List Nat) : Except TssError Empty :=
  fromTssBytes Empty.from_tss_reader bytes

structure TaggedProperty where
  tag : Nat
  value : Nat
deriving DecidableEq, Repr

def TaggedProperty.from_tss_reader (r : TssReader) :
    Except TssError (TaggedProperty × TssReader) :=
  match u32_from_tss_reader r with
  | .error e => .error e
  | .ok (tag, r1) =>
    match u32_from_tss_reader r1 with
    | .error e => .error e
    | .ok (value, r2) => .ok (⟨tag, value⟩, r2)

inductive Capabilities where
  | Handles (handles : List Nat)
  | TaggedProperties (props : List TaggedProperty)
deriving DecidableEq, Repr

structure CapabilitiesResponse where
  capabilities : Capabilities
  more_data : Bool
deriving DecidableEq, Repr

/-- Outcome of a decode that may terminate in a Rust `panic`, which is not a
recoverable `TssError`. -/
inductive DecOutcome (α : Type) where
  | ok (value : α) (r : TssReader)
  | error (e : TssError)
  | panic (msg : String)
deriving DecidableEq, Repr

def CapabilitiesResponse.from_tss_reader (r : TssReader) :
    DecOutcome CapabilitiesResponse :=
  match bool_from_tss_reader r with
  | .error e => .error e
  | .ok (more_data, r1) =>
    match u32_from_tss_reader r1 with
    | .error e => .error e
    | .ok (capability, r2) =>
      match capability with
      | 1 =>
        match vec_from_tss_reader u32_from_tss_reader r2 with
        | .error e => .error e
        | .ok (hs, r3) => .ok ⟨.Handles hs, more_data⟩ r3
      | 6 =>
        match vec_from_tss_reader TaggedProperty.from_tss_reader r2 with
        | .error e => .error e
        | .ok (ps, r3) => .ok ⟨.TaggedProperties ps, more_data⟩ r3
      | _ => .panic "Not implemented"

def CapabilitiesResponse.from_tss_bytes (bytes : List Nat) :
    DecOutcome CapabilitiesResponse :=
  CapabilitiesResponse.from_tss_reader (TssReader.new bytes)

/-! ReadPcrCommand, from crates/tss-client/src/primitives.rs. Its serializer
is hand written and panics on an index outside the 3-byte mask. -/

structure ReadPcrCommand where
  hash : Nat
  pcr_index : List Nat
deriving DecidableEq, Repr

/-- Outcome of an encode that may terminate in a Rust `panic`. -/
inductive EncOutcome where
  | bytes (bs : List Nat)
  | panic (msg : String)
deriving DecidableEq, Repr

def SIZE_OF_PCR_SELECT : Nat := 3

/-- The mask-building loop of `ReadPcrCommand::to_tss_bytes`: for each index,
panic when it is at least `8 * SIZE_OF_PCR_SELECT`, otherwise set bit
`i % 8` of mask byte `i / 8`. -/
def pcrMaskLoop : List Nat → List Nat → Except String (List Nat)
  | [], mask => .ok mask
  | i :: rest, mask =>
    if 8 * SIZE_OF_PCR_SELECT ≤ i then
      .error ("PCR index " ++ toString i ++
        " is out of range (exceeds maximum value " ++
        toString (8 * SIZE_OF_PCR_SELECT - 1) ++ ")")
    else
      pcrMaskLoop rest
        (mask.set (i / 8) ((mask.getD (i / 8) 0) ||| (1 <<< (i % 8))))

def ReadPcrCommand.to_tss_bytes (c : ReadPcrCommand) : EncOutcome :=
  if c.pcr_index.isEmpty then
    .bytes (u32_to_tss_bytes 0)
  else
    match pcrMaskLoop c.pcr_index (List.replicate SIZE_OF_PCR_SELECT 0) with
    | .error msg => .panic msg
    | .ok mask => .bytes (u16_to_tss_bytes c.hash ++ SIZE_OF_PCR_SELECT :: mask)

/-! Client, from crates/tss-client/src/client.rs. -/

/-- Transport-layer failure, from `TcpTransport::send_command`. -/
inductive SendError where
  | tss (e : TssError)
  | commandFailed
deriving DecidableEq, Repr

inductive RunError where
  | transport (e : SendError)
  | decode (e : TssError)
deriving DecidableEq, Repr

/-- The bytes `run_command` passes to the transport: a `CommandHeader` with
tag `NO_SESSIONS`, `length = 10 + body.len() as u32` (u32 arithmetic), the
command code, followed by the encoded body. -/
def runCommandBytes (command_code : Nat) (body : List Nat) : List Nat :=
  CommandHeader.to_tss_bytes
    ⟨tags.NO_SESSIONS, (10 + body.length) % 2 ^ 32, command_code⟩ ++ body

/-- `TssClient::run_command`, with the transport as an explicit function and
the response type's decoder as an explicit argument; the body is already
encoded at the call sites. -/
def run_command {α : Type}
    (transport : List Nat → Except SendError (ResponseHeader × List Nat))
    (dec : TssReader → Except TssError (α × TssReader))
    (command_code : Nat) (body : List Nat) : Except RunError α :=
  match transport (runCommandBytes command_code body) with
  | .error e => .error (.transport e)
  | .ok (_, body_response) =>
    match fromTssBytes dec body_response with
    | .error e => .error (.decode e)
    | .ok v => .ok v

/-- `TssClient::startup`: run the Startup command expecting an `Empty` body. -/
def startup
    (transport : List Nat → Except SendError (ResponseHeader × List Nat))
    (startup_type : Nat) : Except RunError Unit :=
  match run_command transport Empty.from_tss_reader commands.STARTUP
      (StartupCommand.to_tss_bytes ⟨startup_type⟩) with
  | .error e => .error e
  | .ok _ => .ok ()

/-! Response processing of the TCP transport, from
crates/tss-client/src/tcp_transport.rs: after the inner TPM response frame
has been read, decode the `ResponseHeader`, fail on a non-zero response
code, otherwise return the header and the bytes after the 10-byte header. -/

def processTpmResponse (tpm_response : List Nat) :
    Except SendError (ResponseHeader × List Nat) :=
  match fromTssBytes ResponseHeader.from_tss_reader tpm_response with
  | .error e => .error (.tss e)
  | .ok header =>
    if header.response_code ≠ 0 then .error .commandFailed
    else .ok (header, tpm_response.drop 10)

/-! Test structs from crates/tss-serde/tests/integration_tests.rs, which
derive both `TssSerialize` and `TssDeserialize`. -/

structure TpmGetRandomCommand where
  tag : Nat
  length : Nat
  command_code : Nat
  bytes_requested : Nat
deriving DecidableEq, Repr

def TpmGetRandomCommand.to_tss_bytes (c : TpmGetRandomCommand) : List Nat :=
  u16_to_tss_bytes c.tag ++ u32_to_tss_bytes c.length ++
    u32_to_tss_bytes c.command_code ++ u16_to_tss_bytes c.bytes_requested

def TpmGetRandomCommand.from_tss_reader (r : TssReader) :
    Except TssError (TpmGetRandomCommand × TssReader) :=
  match u16_from_tss_reader r with
  | .error e => .error e
  | .ok (tag, r1) =>
    match u32_from_tss_reader r1 with
    | .error e => .error e
    | .ok (length, r2) =>
      match u32_from_tss_reader r2 with
      | .error e => .error e
      | .ok (cc, r3) =>
        match u16_from_tss_reader r3 with
        | .error e => .error e
        | .ok (br, r4) => .ok (⟨tag, length, cc, br⟩, r4)

structure TpmResponse where
  tag : Nat
  length : Nat
  response_code : Nat
  data : List Nat
deriving DecidableEq, Repr

def TpmResponse.to_tss_bytes (c : TpmResponse) : List Nat :=
  u16_to_tss_bytes c.tag ++ u32_to_tss_bytes c.length ++
    u32_to_tss_bytes c.response_code ++ c.data

def TpmResponse.from_tss_reader (r : TssReader) :
    Except TssError (TpmResponse × TssReader) :=
  match u16_from_tss_reader r with
  | .error e => .error e
  | .ok (tag, r1) =>
    match u32_from_tss_reader r1 with
    | .error e => .error e
    | .ok (length, r2) =>
      match u32_from_tss_reader r2 with
      | .error e => .error e
      | .ok (rc, r3) =>
        match array_from_tss_reader 4 r3 with
        | .error e => .error e
        | .ok (data, r4) => .ok (⟨tag, length, rc, data⟩, r4)

/-! Claim theorems and supporting lemmas. -/

theorem beBytes_length (w v : Nat) : (beBytes w v).length = w := by
  induction w generalizing v with
  | zero => rfl
  | succ w ih => simp [beBytes, ih]

/-- C4: for every command code and encodable body whose framed length fits in
a u32, runCommand hands the transport exactly a 10-byte header (tag 0x8001,
big-endian length 10 plus body length, big-endian command code) followed by
the body bytes. -/
theorem C4_run_command_framing (command_code : Nat) (body : List Nat)
    (hcode : command_code < 2 ^ 32) (hlen : 10 + body.length < 2 ^ 32) :
    runCommandBytes command_code body =
      (u16_to_tss_bytes tags.NO_SESSIONS ++
        u32_to_tss_bytes (10 + body.length) ++
        u32_to_tss_bytes command_code) ++ body ∧
    (u16_to_tss_bytes tags.NO_SESSIONS ++
      u32_to_tss_bytes (10 + body.length) ++
      u32_to_tss_bytes command_code).length = 10 := by
  constructor
  · simp only [runCommandBytes, CommandHeader.to_tss_bytes]
    rw [Nat.mod_eq_of_lt hlen]
  · simp [u16_to_tss_bytes, u32_to_tss_bytes, beBytes_length]

/-- C4 witness: the framing law evaluated at command code 0x144 and the
two-byte body of a Startup command. -/
theorem C4_run_command_framing_witness :
    runCommandBytes 0x144 [0, 0] =
      (u16_to_tss_bytes tags.NO_SESSIONS ++
        u32_to_tss_bytes (10 + ([0, 0] : List Nat).length) ++
        u32_to_tss_bytes 0x144) ++ [0, 0] ∧
    (u16_to_tss_bytes tags.NO_SESSIONS ++
      u32_to_tss_bytes (10 + ([0, 0] : List Nat).length) ++
      u32_to_tss_bytes 0x144).length = 10 :=
  C4_run_command_framing 0x144 [0, 0] (by decide) (by decide)

/-- C1: decoding a CapabilitiesResponse whose discriminant (the u32 after the
moreData boolean) is neither 1 nor 6 does not return a recoverable decoding
error: the code panics with "Not implemented". Discriminants 1 and 6 do decode
to Handles and TaggedProperties respectively, shown here on sample inputs.
The evaluation at discriminant 2 is the failing input for the claim. -/
theorem C1_unknown_discriminant_panics :
    CapabilitiesResponse.from_tss_bytes [0, 0, 0, 0, 2] =
      DecOutcome.panic "Not implemented" ∧
    CapabilitiesResponse.from_tss_bytes [0, 0, 0, 0, 1, 0, 0, 0, 1, 0, 0, 0, 9] =
      DecOutcome.ok ⟨.Handles [9], false⟩ ⟨[0, 0, 0, 0, 1, 0, 0, 0, 1, 0, 0, 0, 9], 13⟩ ∧
    CapabilitiesResponse.from_tss_bytes
        [0, 0, 0, 0, 6, 0, 0, 0, 1, 0, 0, 1, 0, 0, 0, 0, 7] =
      DecOutcome.ok ⟨.TaggedProperties [⟨0x100, 7⟩], false⟩
        ⟨[0, 0, 0, 0, 6, 0, 0, 0, 1, 0, 0, 1, 0, 0, 0, 0, 7], 17⟩ := by
  refine ⟨rfl, rfl, rfl⟩

/-- C3: encoding a ReadPcrCommand that contains a PCR index of at least 24
does not return a recoverable range error: the code panics. Evaluated at the
failing input `hash = 11, pcr_index = [24]`. -/
theorem C3_out_of_range_index_panics :
    ReadPcrCommand.to_tss_bytes ⟨11, [24]⟩ =
      EncOutcome.panic
        "PCR index 24 is out of range (exceeds maximum value 23)" := by
  rfl

/-- C5 counterexample: the GetCapability command for TPM_PROPERTIES, property
0x100, propertyCount 1 does not encode to the byte string of the claim, whose
length field reads `00 00 00 10`: the encoded command is 22 = 0x16 bytes long,
so the code writes `00 00 00 16`. -/
theorem C5_counterexample :
    runCommandBytes commands.GET_CAPABILITY
        (GetCapabilityCommand.to_tss_bytes
          ⟨capabilities.TPM_PROPERTIES, properties.FAMILY_INDICATOR, 1⟩) ≠
      [0x80, 0x01, 0x00, 0x00, 0x00, 0x10, 0x00, 0x00, 0x01, 0x7A,
       0x00, 0x00, 0x00, 0x06, 0x00, 0x00, 0x01, 0x00, 0x00, 0x00, 0x00, 0x01] := by
  decide

/-- C5 amended: encoding a GetCapability command with capability
TPM_PROPERTIES (0x06), property 0x100, propertyCount 1 (header built by
runCommand with command code 0x17A) yields exactly the 22 bytes
80 01 00 00 00 16 00 00 01 7A 00 00 00 06 00 00 01 00 00 00 00 01. -/
theorem C5_get_capability_encoding :
    runCommandBytes commands.GET_CAPABILITY
        (GetCapabilityCommand.to_tss_bytes
          ⟨capabilities.TPM_PROPERTIES, properties.FAMILY_INDICATOR, 1⟩) =
      [0x80, 0x01, 0x00, 0x00, 0x00, 0x16, 0x00, 0x00, 0x01, 0x7A,
       0x00, 0x00, 0x00, 0x06, 0x00, 0x00, 0x01, 0x00, 0x00, 0x00, 0x00, 0x01] := by
  rfl

/-- The bit written for one in-range index, as seen through `getD`. -/
theorem maskSet_bit (mask : List Nat) (x i : Nat) (hm : mask.length = 3)
    (hx : x < 24) (hi : i < 24) :
    (((mask.set (x / 8) ((mask.getD (x / 8) 0) ||| (1 <<< (x % 8)))).getD
        (i / 8) 0).testBit (i % 8)) ↔
      ((mask.getD (i / 8) 0).testBit (i % 8) ∨ i = x) := by
  have hxlt : x / 8 < mask.length := by omega
  by_cases hj : i / 8 = x / 8
  · rw [hj]
    simp only [List.getD_eq_getElem?_getD, List.getElem?_set_self hxlt,
      Option.getD_some]
    rw [Nat.one_shiftLeft]
    simp only [Nat.testBit_lor, Nat.testBit_two_pow, Bool.or_eq_true,
      decide_eq_true_eq]
    constructor
    · rintro (h | h)
      · exact Or.inl h
      · exact Or.inr (by omega)
    · rintro (h | h)
      · exact Or.inl h
      · exact Or.inr (by omega)
  · have hne : x / 8 ≠ i / 8 := fun h => hj h.symm
    simp only [List.getD_eq_getElem?_getD, List.getElem?_set_ne hne]
    have hix : i ≠ x := fun h => hj (by rw [h])
    simp [hix]

/-- Invariant of the mask loop: with all indices in range the loop succeeds,
preserves the 3-byte shape, and a bit of the result is set iff it was set in
the starting mask or its index occurs in the list. -/
theorem pcrMaskLoop_spec (l : List Nat) :
    ∀ (mask : List Nat), mask.length = 3 → (∀ i ∈ l, i < 24) →
    ∃ m, pcrMaskLoop l mask = .ok m ∧ m.length = 3 ∧
      ∀ i : Nat, i < 24 →
        (((m.getD (i / 8) 0).testBit (i % 8)) ↔
          ((mask.getD (i / 8) 0).testBit (i % 8) ∨ i ∈ l)) := by
  induction l with
  | nil =>
    intro mask hm _
    exact ⟨mask, rfl, hm, fun i _ => by simp⟩
  | cons x rest ih =>
    intro mask hm hl
    have hx : x < 24 := hl x (List.mem_cons_self _ _)
    have hrest : ∀ i ∈ rest, i < 24 := fun i hi => hl i (List.mem_cons_of_mem _ hi)
    have hm' : (mask.set (x / 8)
        ((mask.getD (x / 8) 0) ||| (1 <<< (x % 8)))).length = 3 := by
      simp [hm]
    obtain ⟨m, hrun, hlen, hbit⟩ := ih _ hm' hrest
    refine ⟨m, ?_, hlen, ?_⟩
    · simp only [pcrMaskLoop, SIZE_OF_PCR_SELECT]
      rw [if_neg (by omega)]
      exact hrun
    · intro i hi
      rw [hbit i hi, maskSet_bit mask x i hm hx hi, List.mem_cons]
      tauto

/-- C2: encoding a ReadPcrCommand whose indices are all below 24 yields the
hash as a big-endian u16, the byte 3, then a 3-byte mask in which bit
`i % 8` of byte `i / 8` is set iff `i` occurs among the requested indices;
an empty index set encodes to exactly the four zero bytes of a u32 count. -/
theorem C2_pcr_mask_law (cmd : ReadPcrCommand) :
    (cmd.pcr_index = [] → cmd.to_tss_bytes = .bytes [0, 0, 0, 0]) ∧
    (cmd.pcr_index ≠ [] → (∀ i ∈ cmd.pcr_index, i < 24) →
      ∃ mask, cmd.to_tss_bytes =
          .bytes (u16_to_tss_bytes cmd.hash ++ 3 :: mask) ∧
        mask.length = 3 ∧
        ∀ i, i < 24 →
          (((mask.getD (i / 8) 0).testBit (i % 8)) ↔ i ∈ cmd.pcr_index)) := by
  constructor
  · intro h
    simp [ReadPcrCommand.to_tss_bytes, h, u32_to_tss_bytes, beBytes]
  · intro hne hlt
    obtain ⟨m, hrun, hlen, hbit⟩ :=
      pcrMaskLoop_spec cmd.pcr_index (List.replicate SIZE_OF_PCR_SELECT 0)
        (by simp [SIZE_OF_PCR_SELECT]) hlt
    refine ⟨m, ?_, hlen, ?_⟩
    · simp only [ReadPcrCommand.to_tss_bytes]
      rw [if_neg (by simp [List.isEmpty_iff, hne]), hrun]
      rfl
    · intro i hi
      rw [hbit i hi]
      have h0 : ((List.replicate SIZE_OF_PCR_SELECT 0).getD (i / 8) 0) = 0 := by
        simp only [List.getD_eq_getElem?_getD, List.getElem?_replicate]
        split <;> rfl
      rw [h0]
      simp [Nat.zero_testBit]

/-- C2 witness: the mask law evaluated at hash 11 and indices 0, 10, 16. -/
theorem C2_pcr_mask_law_witness :
    ∃ mask, ReadPcrCommand.to_tss_bytes ⟨11, [0, 10, 16]⟩ =
        .bytes (u16_to_tss_bytes 11 ++ 3 :: mask) ∧
      mask.length = 3 ∧
      ∀ i, i < 24 →
        (((mask.getD (i / 8) 0).testBit (i % 8)) ↔ i ∈ [0, 10, 16]) :=
  (C2_pcr_mask_law ⟨11, [0, 10, 16]⟩).2 (by decide) (by decide)

/-- Reading the u32 count at the start of a fresh reader. -/
theorem u32_read_new (input : List Nat) (h : 4 ≤ input.length) :
    u32_from_tss_reader (TssReader.new input) =
      .ok (fromBeBytes (input.take 4), ⟨input, 4⟩) := by
  simp [u32_from_tss_reader, TssReader.read_array, TssReader.read_bytes,
    TssReader.hasRemaining, TssReader.remaining, TssReader.new, h]

/-- A fresh reader over fewer than four bytes cannot supply the u32 count. -/
theorem u32_read_new_short (input : List Nat) (h : input.length < 4) :
    u32_from_tss_reader (TssReader.new input) = .error .insufficientData := by
  simp [u32_from_tss_reader, TssReader.read_array, TssReader.read_bytes,
    TssReader.hasRemaining, TssReader.remaining, TssReader.new, Nat.not_le.mpr h]

/-- Truncation law of the element loop: when fewer than `n * k` bytes remain
for `n` elements of fixed size `k`, the loop fails with InsufficientData at
the first truncated element. -/
theorem decodeElems_short {α : Type}
    (dec : TssReader → Except TssError (α × TssReader)) (k : Nat)
    (hfail : ∀ r : TssReader, r.remaining < k → dec r = .error .insufficientData)
    (hok : ∀ r : TssReader, k ≤ r.remaining →
      ∃ a r', dec r = .ok (a, r') ∧ r'.data = r.data ∧
        r'.position = r.position + k) :
    ∀ (n : Nat) (r : TssReader), r.remaining < n * k →
      decodeElems dec n r = .error .insufficientData := by
  intro n
  induction n with
  | zero => intro r h; omega
  | succ n ih =>
    intro r h
    by_cases hr : r.remaining < k
    · simp [decodeElems, hfail r hr]
    · obtain ⟨a, r', hd, hdata, hpos⟩ := hok r (Nat.le_of_not_lt hr)
      have hlen : r'.data.length = r.data.length := by rw [hdata]
      rw [Nat.succ_mul] at h
      have h' : r'.remaining < n * k := by
        simp only [TssReader.remaining] at h hr ⊢
        rw [hlen, hpos]
        omega
      simp [decodeElems, hd, ih r' h']

/-- Success law of the element loop: with at least `n * k` bytes remaining,
`n` fixed-size elements decode, consuming exactly `n * k` bytes. -/
theorem decodeElems_ok {α : Type}
    (dec : TssReader → Except TssError (α × TssReader)) (k : Nat)
    (hok : ∀ r : TssReader, k ≤ r.remaining →
      ∃ a r', dec r = .ok (a, r') ∧ r'.data = r.data ∧
        r'.position = r.position + k) :
    ∀ (n : Nat) (r : TssReader), n * k ≤ r.remaining →
      ∃ (l : List α) (r' : TssReader), decodeElems dec n r = .ok (l, r') ∧
        l.length = n ∧ r'.data = r.data ∧
        r'.position = r.position + n * k := by
  intro n
  induction n with
  | zero =>
    intro r _
    exact ⟨[], r, rfl, rfl, rfl, by omega⟩
  | succ n ih =>
    intro r h
    rw [Nat.succ_mul] at h
    obtain ⟨a, r', hd, hdata, hpos⟩ := hok r (by omega)
    have hlen : r'.data.length = r.data.length := by rw [hdata]
    have hrem : n * k ≤ r'.remaining := by
      simp only [TssReader.remaining] at h ⊢
      rw [hlen, hpos]
      omega
    obtain ⟨l, r'', hrec, hl, hdata', hpos'⟩ := ih r' hrem
    refine ⟨a :: l, r'', by simp [decodeElems, hd, hrec], by simp [hl], ?_, ?_⟩
    · rw [hdata', hdata]
    · rw [hpos', hpos, Nat.succ_mul]; omega

/-- C7: generic sequence decoding. For any fixed-size element decoder (one
that consumes exactly `k` bytes on success and fails with InsufficientData
when fewer than `k` bytes remain), `Vec<T>` decoding reads a big-endian u32
count from the first four bytes and then that many elements; whenever the
count implies more data than the input holds it fails with InsufficientData,
and on success it consumes exactly `4 + count * k` bytes, a position that
never exceeds the buffer length. -/
theorem C7_sequence_decoding {α : Type}
    (dec : TssReader → Except TssError (α × TssReader)) (k : Nat)
    (hfail : ∀ r : TssReader, r.remaining < k → dec r = .error .insufficientData)
    (hok : ∀ r : TssReader, k ≤ r.remaining →
      ∃ a r', dec r = .ok (a, r') ∧ r'.data = r.data ∧
        r'.position = r.position + k)
    (input : List Nat) :
    (input.length < 4 →
      vec_from_tss_reader dec (TssReader.new input) = .error .insufficientData) ∧
    (4 ≤ input.length → input.length < 4 + fromBeBytes (input.take 4) * k →
      vec_from_tss_reader dec (TssReader.new input) = .error .insufficientData) ∧
    (4 ≤ input.length → 4 + fromBeBytes (input.take 4) * k ≤ input.length →
      ∃ l r', vec_from_tss_reader dec (TssReader.new input) = .ok (l, r') ∧
        l.length = fromBeBytes (input.take 4) ∧ r'.data = input ∧
        r'.position = 4 + fromBeBytes (input.take 4) * k ∧
        r'.position ≤ input.length) := by
  refine ⟨fun h => ?_, fun h4 hshort => ?_, fun h4 hfit => ?_⟩
  · simp [vec_from_tss_reader, u32_read_new_short input h]
  · rw [vec_from_tss_reader, u32_read_new input h4]
    exact decodeElems_short dec k hfail hok _ ⟨input, 4⟩
      (by simp only [TssReader.remaining]; omega)
  · rw [vec_from_tss_reader, u32_read_new input h4]
    obtain ⟨l, r', hrun, hl, hdata, hpos⟩ :=
      decodeElems_ok dec k hok (fromBeBytes (input.take 4)) ⟨input, 4⟩
        (by simp only [TssReader.remaining]; omega)
    have hpos4 : r'.position = 4 + fromBeBytes (input.take 4) * k := hpos
    exact ⟨l, r', hrun, hl, hdata, hpos4, by omega⟩

/-- C7 witness: the u32 element decoder (size 4) applied to an input whose
count of 3 exceeds the 8 available element bytes fails with
InsufficientData. -/
theorem C7_sequence_decoding_witness :
    vec_from_tss_reader u32_from_tss_reader
        (TssReader.new [0, 0, 0, 3, 1, 2, 3, 4, 5, 6, 7, 8]) =
      .error .insufficientData :=
  (C7_sequence_decoding u32_from_tss_reader 4
    (fun r hr => by
      simp [u32_from_tss_reader, TssReader.read_array, TssReader.read_bytes,
        TssReader.hasRemaining, Nat.not_le.mpr hr])
    (fun r hr => by
      refine ⟨fromBeBytes ((r.data.drop r.position).take 4),
        ⟨r.data, r.position + 4⟩, ?_, rfl, rfl⟩
      simp [u32_from_tss_reader, TssReader.read_array, TssReader.read_bytes,
        TssReader.hasRemaining, hr])
    [0, 0, 0, 3, 1, 2, 3, 4, 5, 6, 7, 8]).2.1 (by decide) (by decide)

/-- The u8 element decoder fails with InsufficientData on an exhausted
reader. -/
theorem u8_dec_fail (r : TssReader) (h : r.remaining < 1) :
    u8_from_tss_reader r = .error .insufficientData := by
  simp [u8_from_tss_reader, TssReader.read_u8, TssReader.hasRemaining,
    Nat.not_le.mpr h]

/-- The u8 element decoder consumes exactly one byte on success. -/
theorem u8_dec_step (r : TssReader) (h : 1 ≤ r.remaining) :
    ∃ a r', u8_from_tss_reader r = .ok (a, r') ∧ r'.data = r.data ∧
      r'.position = r.position + 1 := by
  refine ⟨r.data.getD r.position 0, ⟨r.data, r.position + 1⟩, ?_, rfl, rfl⟩
  simp [u8_from_tss_reader, TssReader.read_u8, TssReader.hasRemaining, h]

/-- Value law of the u8 element loop: with `n` bytes remaining it returns
exactly the next `n` bytes of the buffer. -/
theorem decodeElems_u8 (n : Nat) : ∀ (r : TssReader), n ≤ r.remaining →
    decodeElems u8_from_tss_reader n r =
      .ok ((r.data.drop r.position).take n, ⟨r.data, r.position + n⟩) := by
  induction n with
  | zero =>
    intro r _
    simp [decodeElems]
  | succ n ih =>
    intro r h
    have hpos : r.position < r.data.length := by
      simp only [TssReader.remaining] at h; omega
    have h1 : r.hasRemaining 1 = true := by
      simp [TssReader.hasRemaining]; omega
    have hrec := ih ⟨r.data, r.position + 1⟩
      (by simp only [TssReader.remaining] at h ⊢; omega)
    simp only [decodeElems, u8_from_tss_reader, TssReader.read_u8, h1, if_true,
      hrec]
    rw [List.drop_eq_getElem_cons hpos]
    simp only [List.take_succ_cons]
    rw [List.getD_eq_getElem?_getD, List.getElem?_eq_getElem hpos]
    simp [Nat.add_assoc, Nat.add_comm 1 n]

/-- C6 amended: decoding a RawResponse reads a big-endian u32 count from the
first four bytes and then exactly that many bytes, which it returns (bytes
beyond the count are ignored); an input with fewer than four bytes, or fewer
than `count` bytes after the prefix, fails with InsufficientData. -/
theorem C6_raw_response_decoding (b : List Nat) :
    (b.length < 4 →
      RawResponse.from_tss_bytes b = .error .insufficientData) ∧
    (4 ≤ b.length → b.length < 4 + fromBeBytes (b.take 4) →
      RawResponse.from_tss_bytes b = .error .insufficientData) ∧
    (4 ≤ b.length → 4 + fromBeBytes (b.take 4) ≤ b.length →
      RawResponse.from_tss_bytes b =
        .ok ⟨(b.drop 4).take (fromBeBytes (b.take 4))⟩) := by
  refine ⟨fun h => ?_, fun h4 hshort => ?_, fun h4 hfit => ?_⟩
  · simp [RawResponse.from_tss_bytes, fromTssBytes, RawResponse.from_tss_reader,
      vec_from_tss_reader, u32_read_new_short b h]
  · have hcut := decodeElems_short u8_from_tss_reader 1 u8_dec_fail u8_dec_step
      (fromBeBytes (b.take 4)) ⟨b, 4⟩
      (by simp only [TssReader.remaining]; omega)
    simp [RawResponse.from_tss_bytes, fromTssBytes, RawResponse.from_tss_reader,
      vec_from_tss_reader, u32_read_new b h4, hcut]
  · have hrun := decodeElems_u8 (fromBeBytes (b.take 4)) ⟨b, 4⟩
      (by simp only [TssReader.remaining]; omega)
    simp [RawResponse.from_tss_bytes, fromTssBytes, RawResponse.from_tss_reader,
      vec_from_tss_reader, u32_read_new b h4, hrun]

/-- C6 amended witness: on the input `00 00 00 02 07 09 05` the decoder
returns the two bytes after the count and ignores the trailing byte. -/
theorem C6_raw_response_decoding_witness :
    RawResponse.from_tss_bytes [0, 0, 0, 2, 7, 9, 5] = .ok ⟨[7, 9]⟩ := by
  have h := (C6_raw_response_decoding [0, 0, 0, 2, 7, 9, 5]).2.2
    (by decide) (by decide)
  simpa using h

/-- C6 counterexample: decoding a RawResponse from the one-byte input `[1]`
does not succeed with exactly that byte: the decoder consumes a u32 length
prefix first, so the one-byte input fails with InsufficientData. -/
theorem C6_counterexample :
    RawResponse.from_tss_bytes [1] = .error .insufficientData ∧
    RawResponse.from_tss_bytes [0, 0, 0, 1, 7, 9] = .ok ⟨[7]⟩ := by
  refine ⟨rfl, rfl⟩

/-- C8: when the received TPM response frame carries a non-zero response
code, the transport's response processing fails before returning any body,
and runCommand surfaces the failure for every response decoder, without
attempting body decoding. -/
theorem C8_nonzero_response_code (resp : List Nat) (hdr : ResponseHeader)
    (hdec : fromTssBytes ResponseHeader.from_tss_reader resp = .ok hdr)
    (hnz : hdr.response_code ≠ 0) :
    processTpmResponse resp = .error .commandFailed ∧
    ∀ (α : Type) (dec : TssReader → Except TssError (α × TssReader))
      (code : Nat) (body : List Nat),
      run_command (fun _ => processTpmResponse resp) dec code body =
        .error (.transport .commandFailed) := by
  have h1 : processTpmResponse resp = .error .commandFailed := by
    simp [processTpmResponse, hdec, hnz]
  exact ⟨h1, fun α dec code body => by simp [run_command, h1]⟩

/-- C8 witness: a response frame with responseCode 0x00000922 makes the
transport fail and runCommand return the transport failure. -/
theorem C8_nonzero_response_code_witness :
    processTpmResponse [0x80, 0x01, 0, 0, 0, 10, 0, 0, 0x09, 0x22] =
      .error .commandFailed ∧
    run_command
        (fun _ =>
          processTpmResponse [0x80, 0x01, 0, 0, 0, 10, 0, 0, 0x09, 0x22])
        RawResponse.from_tss_reader 0x17E [] =
      .error (.transport .commandFailed) := by
  have h := C8_nonzero_response_code
    [0x80, 0x01, 0, 0, 0, 10, 0, 0, 0x09, 0x22]
    ⟨0x8001, 10, 0x922⟩ rfl (by decide)
  exact ⟨h.1, h.2 RawResponse RawResponse.from_tss_reader 0x17E []⟩

/-- C9: round-trip law. Decoding the bytes produced by encoding returns the
original value, for the primitive u8/u16/u32/u64 codecs over their value
ranges, the fixed byte-array codec over lists of the declared size, and the
derived struct codecs of the two integration-test records over field-valid
values. -/
theorem C9_roundtrip :
    (∀ v : Nat, v < 2 ^ 8 →
      fromTssBytes u8_from_tss_reader (u8_to_tss_bytes v) = .ok v) ∧
    (∀ v : Nat, v < 2 ^ 16 →
      fromTssBytes u16_from_tss_reader (u16_to_tss_bytes v) = .ok v) ∧
    (∀ v : Nat, v < 2 ^ 32 →
      fromTssBytes u32_from_tss_reader (u32_to_tss_bytes v) = .ok v) ∧
    (∀ v : Nat, v < 2 ^ 64 →
      fromTssBytes u64_from_tss_reader (u64_to_tss_bytes v) = .ok v) ∧
    (∀ (n : Nat) (bs : List Nat), bs.length = n →
      fromTssBytes (array_from_tss_reader n) bs = .ok bs) ∧
    (∀ x : TpmGetRandomCommand, x.tag < 2 ^ 16 → x.length < 2 ^ 32 →
      x.command_code < 2 ^ 32 → x.bytes_requested < 2 ^ 16 →
      fromTssBytes TpmGetRandomCommand.from_tss_reader x.to_tss_bytes =
        .ok x) ∧
    (∀ x : TpmResponse, x.tag < 2 ^ 16 → x.length < 2 ^ 32 →
      x.response_code < 2 ^ 32 → x.data.length = 4 →
      fromTssBytes TpmResponse.from_tss_reader x.to_tss_bytes = .ok x) := by
  refine ⟨fun v hv => ?_, fun v hv => ?_, fun v hv => ?_, fun v hv => ?_,
    fun n bs h => ?_, fun x h1 h2 h3 h4 => ?_, fun x h1 h2 h3 h4 => ?_⟩
  · simp [u8_to_tss_bytes, fromTssBytes, u8_from_tss_reader,
      TssReader.read_u8, TssReader.hasRemaining, TssReader.remaining,
      TssReader.new]
  · simp [u16_to_tss_bytes, beBytes, fromTssBytes, u16_from_tss_reader,
      TssReader.read_array, TssReader.read_bytes, TssReader.hasRemaining,
      TssReader.remaining, TssReader.new, fromBeBytes]
    omega
  · simp [u32_to_tss_bytes, beBytes, fromTssBytes, u32_from_tss_reader,
      TssReader.read_array, TssReader.read_bytes, TssReader.hasRemaining,
      TssReader.remaining, TssReader.new, fromBeBytes]
    omega
  · simp [u64_to_tss_bytes, beBytes, fromTssBytes, u64_from_tss_reader,
      TssReader.read_array, TssReader.read_bytes, TssReader.hasRemaining,
      TssReader.remaining, TssReader.new, fromBeBytes]
    omega
  · subst h
    simp [fromTssBytes, array_from_tss_reader, TssReader.read_array,
      TssReader.read_bytes, TssReader.hasRemaining, TssReader.remaining,
      TssReader.new]
  · obtain ⟨t, l, c, b⟩ := x
    simp only at h1 h2 h3 h4
    simp [TpmGetRandomCommand.to_tss_bytes, u16_to_tss_bytes,
      u32_to_tss_bytes, beBytes, fromTssBytes,
      TpmGetRandomCommand.from_tss_reader, u16_from_tss_reader,
      u32_from_tss_reader, TssReader.read_array, TssReader.read_bytes,
      TssReader.hasRemaining, TssReader.remaining, TssReader.new, fromBeBytes]
    omega
  · obtain ⟨t, l, c, data⟩ := x
    simp only at h1 h2 h3 h4
    obtain ⟨d0, d1, d2, d3, hdata⟩ :
        ∃ d0 d1 d2 d3, data = [d0, d1, d2, d3] := by
      rcases data with _ | ⟨d0, _ | ⟨d1, _ | ⟨d2, _ | ⟨d3, _ | ⟨d4, rest⟩⟩⟩⟩⟩ <;>
        simp_all
    subst hdata
    simp [TpmResponse.to_tss_bytes, u16_to_tss_bytes, u32_to_tss_bytes,
      beBytes, fromTssBytes, TpmResponse.from_tss_reader, u16_from_tss_reader,
      u32_from_tss_reader, array_from_tss_reader, TssReader.read_array,
      TssReader.read_bytes, TssReader.hasRemaining, TssReader.remaining,
      TssReader.new, fromBeBytes]
    omega

/-- C9 witness: the round trips of the two integration-test records at their
test values. -/
theorem C9_roundtrip_witness :
    fromTssBytes TpmGetRandomCommand.from_tss_reader
        (TpmGetRandomCommand.to_tss_bytes ⟨0x8001, 12, 0x17B, 32⟩) =
      .ok ⟨0x8001, 12, 0x17B, 32⟩ ∧
    fromTssBytes TpmResponse.from_tss_reader
        (TpmResponse.to_tss_bytes ⟨0x8001, 14, 0, [0xAB, 0xCD, 0xEF, 0x12]⟩) =
      .ok ⟨0x8001, 14, 0, [0xAB, 0xCD, 0xEF, 0x12]⟩ :=
  ⟨C9_roundtrip.2.2.2.2.2.1 ⟨0x8001, 12, 0x17B, 32⟩
      (by decide) (by decide) (by decide) (by decide),
    C9_roundtrip.2.2.2.2.2.2 ⟨0x8001, 14, 0, [0xAB, 0xCD, 0xEF, 0x12]⟩
      (by decide) (by decide) (by decide) (by decide)⟩

/-- C10: decoding an Empty response succeeds exactly on an empty input and
fails with InvalidFormat on any non-empty input, so a startup call fails
whenever the transport hands back a response with body bytes. -/
theorem C10_empty_iff_no_bytes (b : List Nat) :
    (Empty.from_tss_bytes b = .ok ⟨⟩ ↔ b = []) ∧
    (b ≠ [] → Empty.from_tss_bytes b = .error .invalidFormat) ∧
    (∀ (hdr : ResponseHeader) (st : Nat), b ≠ [] →
      startup (fun _ => .ok (hdr, b)) st = .error (.decode .invalidFormat)) := by
  have h2 : b ≠ [] → Empty.from_tss_bytes b = .error .invalidFormat := by
    intro hb
    have hlen : b.length ≠ 0 := fun h => hb (List.length_eq_zero.mp h)
    simp [Empty.from_tss_bytes, fromTssBytes, Empty.from_tss_reader,
      TssReader.new, TssReader.remaining, hlen]
  refine ⟨⟨fun h => ?_, fun h => ?_⟩, h2, fun hdr st hb => ?_⟩
  · by_contra hb
    rw [h2 hb] at h
    cases h
  · subst h
    rfl
  · have h3 : fromTssBytes Empty.from_tss_reader b = .error .invalidFormat :=
      h2 hb
    simp [startup, run_command, h3]

/-- C10 witness: a one-byte response body makes the Empty decoder and the
startup call fail with InvalidFormat. -/
theorem C10_empty_iff_no_bytes_witness :
    Empty.from_tss_bytes [0xAA] = .error .invalidFormat ∧
    startup (fun _ => .ok (⟨0x8001, 11, 0⟩, [0xAA])) 0 =
      .error (.decode .invalidFormat) := by
  have h := C10_empty_iff_no_bytes [0xAA]
  exact ⟨h.2.1 (by decide), h.2.2 ⟨0x8001, 11, 0⟩ 0 (by decide)⟩

end Tss
